import Mathlib

/-!
Verification of the TouchSDF repository.

Shallow embedding of `src/model/train.py`,
`src/scripts/test_infershape_adam_lbfgs.py` and `src/utils/utils_mesh.py`
over exact rational arithmetic, together with theorems checking the
specification's claims against the embedded code.  Components that live
outside the provided sources (the decoder network, the loss functions,
the latent-code generator) are abstracted as parameters or, where a claim
depends on them, modelled from the specification with an explicit marker.
-/

namespace TouchSDF

/-! ### Basic geometry: 3-D points and 3x3 matrices over ℚ -/

structure Vec3 where
  x : ℚ
  y : ℚ
  z : ℚ
deriving DecidableEq

def vzero : Vec3 := ⟨0, 0, 0⟩

def vadd (a b : Vec3) : Vec3 := ⟨a.x + b.x, a.y + b.y, a.z + b.z⟩

def vsub (a b : Vec3) : Vec3 := ⟨a.x - b.x, a.y - b.y, a.z - b.z⟩

structure Mat3 where
  r0 : Vec3
  r1 : Vec3
  r2 : Vec3
deriving DecidableEq

def dot (a b : Vec3) : ℚ := a.x * b.x + a.y * b.y + a.z * b.z

def matVec (M : Mat3) (p : Vec3) : Vec3 := ⟨dot M.r0 p, dot M.r1 p, dot M.r2 p⟩

def identMat : Mat3 := ⟨⟨1, 0, 0⟩, ⟨0, 1, 0⟩, ⟨0, 0, 1⟩⟩

/-- A latent-code matrix (or any numeric matrix): a list of rows. -/
abbrev Mat : Type := List (List ℚ)

/-! ### `get_data` (test_infershape_adam_lbfgs.py, lines 27-89)

`coords_temp` / `sdf_temp` are kept in lockstep by the script (every mask
built from `sdf_temp` or `coords_array` is applied to both arrays), so they
are embedded as a single list of (coords, sdf) samples. -/

structure Sample where
  coords : Vec3
  sdf : ℚ
deriving DecidableEq

/-- Lines 57-58: `coords_temp[(sdf_temp < 0.001) & (sdf_temp > -0.001)]` and
the same mask applied to `sdf_temp`. -/
def retainNearSurface (samples : List Sample) : List Sample :=
  samples.filter (fun s => decide (s.sdf < 1/1000 ∧ s.sdf > -(1/1000)))

/-! ### `initialise_latent_code` (test_infershape_adam_lbfgs.py, lines 20-25)

`torch.normal(0, 0.01, size=(1, latent_size), ...)` is a fresh Gaussian
draw from the ambient RNG; the draw itself (position ↦ variate) is the
`gaussianDraw` parameter, so the distribution lives outside the embedding.
The function receives `results_dict` but never reads it, exactly as in the
source (the body that did read it is commented out there). -/

/-- The results record written by the training driver
(`train.py` lines 47-50, 57-58, 62): a dictionary
with train losses, per-epoch latent-code snapshots, and validation losses. -/
structure ResultsRecord where
  train_loss : List ℚ
  train_latent_codes : List Mat
  val_loss : List ℚ
deriving DecidableEq

def initialise_latent_code (latent_size : Nat) (results_dict : ResultsRecord)
    (gaussianDraw : Nat → ℚ) : Mat :=
  [(List.range latent_size).map gaussianDraw]

/-! ### Best-loss tracking and persistence (test_infershape_adam_lbfgs.py,
lines 143, 191-193, 208-210)

The per-epoch `loss_value` sequence and the latent code at each epoch are
abstracted as the input list `epochResults` (the loss comes from the decoder
forward pass, which lives outside src/).  `best_latent_code` is a Python
local that is only assigned inside `if loss < best_loss:`; `torch.save`
on a never-assigned local raises NameError, modelled by `none`. -/

def bestStep (acc : ℚ × Option Mat) (el : ℚ × Mat) : ℚ × Option Mat :=
  if el.1 < acc.1 then (el.1, some el.2) else acc

/-- Lines 143 and 191-193: `best_loss = 1000000`, then per epoch
`if loss_value < best_loss: best_loss = ...; best_latent_code = latent_code.clone()`. -/
def trackBestLatent (epochResults : List (ℚ × Mat)) : ℚ × Option Mat :=
  epochResults.foldl bestStep (1000000, none)

/-- Lines 208-210: `torch.save(best_latent_code, latent_code_path)`;
`none` models the NameError raised when no epoch ever assigned
`best_latent_code`, in which case nothing is persisted. -/
def persistLatentCode (epochResults : List (ℚ × Mat)) : Option Mat :=
  (trackBestLatent epochResults).2

/-! ### The argparse namespace and the phase-switch comparison
(test_infershape_adam_lbfgs.py, lines 146-172 and 223-282)

An argparse `Namespace` is a flat record of the attributes installed by the
`parser.add_argument` calls; attribute access on a missing name raises
AttributeError.  All argument values of this script are scalars
(str / int / float / bool), embedded as `PyVal`. -/

inductive PyVal where
  | pyFloat (q : ℚ)
  | pyInt (z : ℤ)
  | pyStr (s : String)
  | pyBool (b : Bool)
deriving DecidableEq

def nsLookup : List (String × PyVal) → String → Option PyVal
  | [], _ => none
  | (k, v) :: rest, a => if k = a then some v else nsLookup rest a

/-- Python `getattr` on an argparse namespace: a missing attribute raises
AttributeError. -/
def getattrNS (ns : List (String × PyVal)) (a : String) : Except String PyVal :=
  match nsLookup ns a with
  | some v => Except.ok v
  | none => Except.error ("AttributeError: " ++ a)

/-- Attribute access on a scalar argparse value (str / int / float / bool):
none of them has an `lr` attribute, so it raises AttributeError. -/
def getattrVal (v : PyVal) (a : String) : Except String PyVal :=
  Except.error ("AttributeError: " ++ a)

def asRat : PyVal → Except String ℚ
  | PyVal.pyFloat q => Except.ok q
  | PyVal.pyInt z => Except.ok (z : ℚ)
  | _ => Except.error "TypeError"

/-- Line 151: evaluation of `args.args.lr > args.lr * (args.lr_multiplier)**5`,
in Python's left-to-right order.  `args.args` is evaluated first; if it
raises, nothing else is evaluated. -/
def phaseCondition (args : List (String × PyVal)) : Except String Bool :=
  match getattrNS args "args" with
  | Except.error e => Except.error e
  | Except.ok a =>
    match getattrVal a "lr" with
    | Except.error e => Except.error e
    | Except.ok lhsVal =>
      match asRat lhsVal with
      | Except.error e => Except.error e
      | Except.ok lhs =>
        match getattrNS args "lr" with
        | Except.error e => Except.error e
        | Except.ok lrVal =>
          match asRat lrVal with
          | Except.error e => Except.error e
          | Except.ok lr =>
            match getattrNS args "lr_multiplier" with
            | Except.error e => Except.error e
            | Except.ok multVal =>
              match asRat multVal with
              | Except.error e => Except.error e
              | Except.ok mult => Except.ok (decide (lhs > lr * mult ^ 5))

/-- The attribute names installed by the inference script's
`parser.add_argument` calls (lines 224-281), in source order. -/
def inferenceArgNames : List String :=
  ["folder", "latent_size", "lr", "epochs", "sigma_regulariser",
   "lr_multiplier", "patience", "lr_scheduler", "num_layers",
   "no_skip_connections", "num_samples", "index_objs_dict", "resolution",
   "clamp", "clamp_value", "touches", "langevin_noise", "optimiser",
   "LBFGS_maxiter"]

/-- The namespace produced by `parser.parse_args()` with every default
value (lines 224-281). -/
def inferenceDefaultArgs : List (String × PyVal) :=
  [("folder", PyVal.pyStr ""), ("latent_size", PyVal.pyInt 128),
   ("lr", PyVal.pyFloat (1/1000)), ("epochs", PyVal.pyInt 3000),
   ("sigma_regulariser", PyVal.pyFloat (1/100)),
   ("lr_multiplier", PyVal.pyFloat (1/2)), ("patience", PyVal.pyInt 20),
   ("lr_scheduler", PyVal.pyBool false), ("num_layers", PyVal.pyInt 8),
   ("no_skip_connections", PyVal.pyBool false),
   ("num_samples", PyVal.pyInt 5000), ("index_objs_dict", PyVal.pyInt (-1)),
   ("resolution", PyVal.pyInt 50), ("clamp", PyVal.pyBool false),
   ("clamp_value", PyVal.pyFloat (1/10)), ("touches", PyVal.pyInt 0),
   ("langevin_noise", PyVal.pyFloat 0), ("optimiser", PyVal.pyStr "Adam"),
   ("LBFGS_maxiter", PyVal.pyInt 20)]

/-! ### Latent-code gradient masking (train.py, lines 126-130) -/

/-- Lines 126-130: for every row index `i` of the latent-code matrix, if `i`
is not among the (deduplicated, `torch.unique`) class indices of the batch,
the gradient row is zeroed in place; otherwise it is left untouched. -/
def maskAbsentGrads (grad : Mat) (batchIdx : List Nat) : Mat :=
  (List.range grad.length).map (fun i =>
    if i ∈ batchIdx.dedup then grad.getD i []
    else List.replicate (grad.getD i []).length 0)

/-! ### Target-object selection (test_infershape_adam_lbfgs.py, lines 46-50) -/

/-- Python list indexing `objs[i]`: non-negative indices must be < len,
negative indices count from the end, and anything below −len raises
IndexError (modelled by `none`). -/
def pyIndex (objs : List String) (i : ℤ) : Option String :=
  if 0 ≤ i then objs.get? i.toNat
  else if 0 ≤ i + (objs.length : ℤ) then objs.get? (i + (objs.length : ℤ)).toNat
  else none

/-- Lines 47-50: `if args.index_objs_dict != -1 and args.index_objs_dict <
len(objs): random_obj = objs[args.index_objs_dict] else: random_obj =
objs[np.random.randint(0, len(objs))]`.  The uniform draw
`np.random.randint(0, len(objs))` is the parameter `r`. -/
def selectTargetObj (index_objs_dict : ℤ) (objs : List String) (r : Nat) :
    Option String :=
  if index_objs_dict ≠ -1 ∧ index_objs_dict < (objs.length : ℤ) then
    pyIndex objs index_objs_dict
  else objs.get? r

/-! ### Touch-cube simulation (test_infershape_adam_lbfgs.py, lines 61-80) -/

/-- Lines 73-75: `upper_bound = centre + 0.06; lower_bound = centre - 0.06;
condition = [i.all() for i in ((coords_array <= upper_bound) & (coords_array
>= lower_bound))]` — inclusive componentwise bounds. -/
def inVoxel (centre p : Vec3) : Bool :=
  decide (p.x ≤ centre.x + 6/100 ∧ p.x ≥ centre.x - 6/100
    ∧ p.y ≤ centre.y + 6/100 ∧ p.y ≥ centre.y - 6/100
    ∧ p.z ≤ centre.z + 6/100 ∧ p.z ≥ centre.z - 6/100)

/-- Lines 76-77: the retained samples falling inside the cube around
`centre` (applied to coords and sdf in lockstep). -/
def touchSamples (samples : List Sample) (centre : Vec3) : List Sample :=
  samples.filter (fun s => inVoxel centre s.coords)

def defaultSample : Sample := ⟨vzero, 0⟩

/-- Lines 64-80: the touch loop.  `voxel_coords_all` / `voxel_sdf_all` start
empty and each touch `np.vstack`s / `np.hstack`s the samples inside the cube
centred at the randomly drawn retained point; `idxs` is the list of random
draws `np.random.choice(np.arange(0, coords_array.shape[0]))`, one per
touch, and `acc` is the accumulator. -/
def simulateTouches (samples : List Sample) : List Nat → List Sample → List Sample
  | [], acc => acc
  | i :: rest, acc =>
      simulateTouches samples rest
        (acc ++ touchSamples samples (samples.getD i defaultSample).coords)

/-! ### `translate_rotate_mesh` (utils_mesh.py, lines 185-201)

`a = rot_M_wrld_list @ pointclouds_list.transpose(0,2,1)`,
`b = a.transpose(0,2,1)`, `c = pos_wrld_list[:, np.newaxis, :] + b`,
`pointcloud_wrld = c - obj_initial_pos`: per touch batch, each point is
rotated, translated by the sensor world position, and the object's initial
position is subtracted.  The batched numpy arrays are embedded as lists
indexed in lockstep. -/

def translate_rotate_mesh :
    List Vec3 → List Mat3 → List (List Vec3) → Vec3 → List (List Vec3)
  | p :: ps, R :: Rs, pc :: pcs, obj_initial_pos =>
      pc.map (fun q => vsub (vadd (matVec R q) p) obj_initial_pos)
        :: translate_rotate_mesh ps Rs pcs obj_initial_pos
  | _, _, _, _ => []

/-! ### `urdf_to_mesh` sub-mesh merging (utils_mesh.py, lines 29-37) -/

structure Face where
  a : Nat
  b : Nat
  c : Nat
deriving DecidableEq

/-- `face + offset` on a numpy row of three indices: the offset is added to
every entry. -/
def offsetFace (f : Face) (off : Nat) : Face := ⟨f.a + off, f.b + off, f.c + off⟩

/-- Line 31: `np.cumsum([v.shape[0] for v in verts_list], dtype=np.float32)`
(the float32 dtype is exact for the integer vertex counts involved, so the
offsets are embedded as naturals). -/
def npCumsum (l : List Nat) : List Nat := (l.scanl (· + ·) 0).tail

/-- Line 32: `np.insert(faces_offset, 0, 0)[:-1]`. -/
def facesOffset (vertCounts : List Nat) : List Nat :=
  (0 :: npCumsum vertCounts).dropLast

/-- Line 33: `verts = np.vstack(verts_list)`. -/
def urdfMergeVerts (verts_list : List (List Vec3)) : List Vec3 :=
  verts_list.flatten

/-- Line 34, inside the vstack: `[face + offset for face, offset in
zip(faces_list, faces_offset)]` — the per-sub-mesh blocks of shifted faces. -/
def urdfFaceBlocks (verts_list : List (List Vec3))
    (faces_list : List (List Face)) : List (List Face) :=
  (faces_list.zip (facesOffset (verts_list.map List.length))).map
    (fun pr => pr.1.map (fun f => offsetFace f pr.2))

/-- Line 34: `faces = np.vstack([...])`. -/
def urdfMergeFaces (verts_list : List (List Vec3))
    (faces_list : List (List Face)) : List Face :=
  (urdfFaceBlocks verts_list faces_list).flatten

/-! ### The training driver's epoch loop (train.py, lines 26-68)

`Trainer.train` and `Trainer.validate` call the decoder and the loss, which
live outside src/; they are abstracted as parameters `tp` (training pass:
updates model parameters and the latent-code matrix through the two
optimizer steps and returns the mean loss) and `vp` (no-grad validation
pass: returns the mean loss).  The model parameter type is abstract. -/

inductive TrainEvent where
  | trainPass (e : Nat)
  | valPass (e : Nat)
  | saveResults (e : Nat)
  | saveWeights (e : Nat)
deriving DecidableEq

/-- The observable events of epoch `e`, in the order they appear in
`Trainer.__call__` (lines 56-65): training pass, validation pass, results
overwrite, checkpoint overwrite. -/
def epochEvents (e : Nat) : List TrainEvent :=
  [TrainEvent.trainPass e, TrainEvent.valPass e,
   TrainEvent.saveResults e, TrainEvent.saveWeights e]

structure RunState (M : Type) where
  latent_codes : Mat
  model_params : M
  results : ResultsRecord
  disk_results : Option ResultsRecord
  disk_weights : Option M
  trace : List TrainEvent
deriving DecidableEq

/-- Modelled from the spec: `utils.generate_latent_codes` (not under src/)
returns a differentiable matrix with one row of width `latent_size` per
distinct class key of the samples dictionary, plus the class-key → row-index
map; `draw` abstracts the random initialization. -/
def generate_latent_codes (latent_size : Nat) (sample_keys : List String)
    (draw : Nat → Nat → ℚ) : Mat × List (String × Nat) :=
  ((List.range sample_keys.dedup.length).map
      (fun i => (List.range latent_size).map (draw i)),
   sample_keys.dedup.enum.map (fun pr => (pr.2, pr.1)))

/-- One epoch of `Trainer.__call__` (lines 56-65): run the training pass,
append the mean training loss and a detached snapshot of the latent-code
matrix to the results record, run the validation pass and append its loss,
then overwrite `results.npy` and `weights.pt` on disk. -/
def epochBody (M : Type) (tp : M → Mat → M × Mat × ℚ) (vp : M → Mat → ℚ)
    (e : Nat) (st : RunState M) : RunState M :=
  let t := tp st.model_params st.latent_codes
  let res1 : ResultsRecord :=
    ⟨st.results.train_loss ++ [t.2.2],
     st.results.train_latent_codes ++ [t.2.1],
     st.results.val_loss⟩
  let vl := vp t.1 t.2.1
  let res2 : ResultsRecord :=
    ⟨res1.train_loss, res1.train_latent_codes, res1.val_loss ++ [vl]⟩
  ⟨t.2.1, t.1, res2, some res2, some t.1, st.trace ++ epochEvents e⟩

/-- Lines 53-65: `for epoch in range(self.args.epochs)`. -/
def runEpochs (M : Type) (tp : M → Mat → M × Mat × ℚ) (vp : M → Mat → ℚ)
    (st0 : RunState M) : Nat → RunState M
  | 0 => st0
  | n + 1 => epochBody M tp vp n (runEpochs M tp vp st0 n)

/-- Lines 39-50: fresh results record `{train: {loss: [], latent_codes: []},
val: {loss: []}}`, nothing on disk yet. -/
def initRunState (M : Type) (m0 : M) (lc0 : Mat) : RunState M :=
  ⟨lc0, m0, ⟨[], [], []⟩, none, none, []⟩

/-- `Trainer.__call__` end to end with `n` epochs: latent codes generated
from the samples dictionary's class keys, then the epoch loop. -/
def trainerRun (M : Type) (tp : M → Mat → M × Mat × ℚ) (vp : M → Mat → ℚ)
    (m0 : M) (sample_keys : List String) (latent_size : Nat)
    (draw : Nat → Nat → ℚ) (n : Nat) : RunState M :=
  runEpochs M tp vp
    (initRunState M m0 (generate_latent_codes latent_size sample_keys draw).1) n

/-- Matrix shape: `r` rows, each of width `c`. -/
def matShape (m : Mat) (r c : Nat) : Prop :=
  m.length = r ∧ ∀ row ∈ m, row.length = c

/-- The event at flat position `i` of the concatenated epoch traces. -/
def evAt (i : Nat) : TrainEvent :=
  match i % 4 with
  | 0 => TrainEvent.trainPass (i / 4)
  | 1 => TrainEvent.valPass (i / 4)
  | 2 => TrainEvent.saveResults (i / 4)
  | _ => TrainEvent.saveWeights (i / 4)

/-- Two concrete retained samples 0.05 apart on the x-axis: each lies inside
the other's touch cube, so two touches centred at them duplicate both. -/
def exS0 : Sample := ⟨⟨0, 0, 0⟩, 0⟩

def exS1 : Sample := ⟨⟨1/20, 0, 0⟩, 0⟩

def exSamples : List Sample := [exS0, exS1]

/-! ## Theorems -/

theorem simulateTouches_eq_flatten (samples : List Sample) (idxs : List Nat) :
    ∀ acc : List Sample,
      simulateTouches samples idxs acc
        = acc ++ (idxs.map
            (fun i => touchSamples samples (samples.getD i defaultSample).coords)).flatten := by
  induction idxs with
  | nil => intro acc; simp [simulateTouches]
  | cons i rest ih =>
    intro acc
    simp only [simulateTouches, ih, List.map_cons, List.flatten_cons,
      List.append_assoc]

theorem ident_point (q : Vec3) :
    vsub (vadd (matVec identMat q) vzero) vzero = q := by
  cases q
  simp only [identMat, matVec, dot, vadd, vsub, vzero, Vec3.mk.injEq]
  refine ⟨by ring, by ring, by ring⟩

theorem bestStep_fold_isSome (l : List (ℚ × Mat)) (bl : ℚ) (b : Option Mat) :
    (l.foldl bestStep (bl, b)).2.isSome
      = (b.isSome || l.any (fun e => decide (e.1 < bl))) := by
  induction l generalizing bl b with
  | nil => simp
  | cons hd tl ih =>
    simp only [List.foldl_cons, List.any_cons, bestStep]
    by_cases h : hd.1 < bl
    · simp only [if_pos h, ih, Option.isSome_some, Bool.true_or, decide_eq_true h,
        Bool.or_true, Bool.true_or]
    · simp only [if_neg h, ih, decide_eq_false h, Bool.false_or]

theorem scanl_add_getElem (l : List Nat) :
    ∀ (b j : Nat), j ≤ l.length →
      (l.scanl (· + ·) b)[j]? = some (b + (l.take j).sum) := by
  induction l with
  | nil =>
    intro b j hj
    have hj0 : j = 0 := Nat.le_zero.mp hj
    subst hj0
    simp
  | cons a l ih =>
    intro b j hj
    cases j with
    | zero => simp
    | succ j =>
      simp only [List.length_cons] at hj
      rw [List.scanl_cons, List.singleton_append, List.getElem?_cons_succ,
        ih (b + a) j (by omega)]
      simp [Nat.add_assoc]

theorem facesOffset_eq (l : List Nat) :
    facesOffset l = (l.scanl (· + ·) 0).dropLast := by
  cases l with
  | nil => rfl
  | cons a l => rfl

theorem facesOffset_getElem (l : List Nat) (j : Nat) (hj : j < l.length) :
    (facesOffset l)[j]? = some ((l.take j).sum) := by
  rw [facesOffset_eq, List.dropLast_eq_take, List.length_scanl,
    Nat.add_sub_cancel, List.getElem?_take_of_lt hj,
    scanl_add_getElem l 0 j (Nat.le_of_lt hj)]
  simp

theorem facesOffset_length (l : List Nat) :
    (facesOffset l).length = l.length := by
  rw [facesOffset_eq, List.length_dropLast, List.length_scanl,
    Nat.add_sub_cancel]

theorem urdfFaceBlocks_getElem (verts_list : List (List Vec3))
    (faces_list : List (List Face))
    (hlen : faces_list.length = verts_list.length)
    (j : Nat) (hj : j < faces_list.length) :
    (urdfFaceBlocks verts_list faces_list)[j]?
      = some ((faces_list.getD j []).map
          (fun f => offsetFace f (((verts_list.map List.length).take j).sum))) := by
  have hofflen : (facesOffset (verts_list.map List.length)).length
      = verts_list.length := by
    rw [facesOffset_length, List.length_map]
  have hf : faces_list[j]? = some (faces_list.getD j []) := by
    rw [List.getElem?_eq_getElem hj, List.getD_eq_getElem?_getD,
      List.getElem?_eq_getElem hj]
    rfl
  have hoff : (facesOffset (verts_list.map List.length))[j]?
      = some (((verts_list.map List.length).take j).sum) :=
    facesOffset_getElem (verts_list.map List.length) j
      (by rw [List.length_map]; omega)
  have hzip : (faces_list.zip (facesOffset (verts_list.map List.length)))[j]?
      = some (faces_list.getD j [],
          ((verts_list.map List.length).take j).sum) :=
    List.getElem?_zip_eq_some.mpr ⟨hf, hoff⟩
  unfold urdfFaceBlocks
  rw [List.getElem?_map, hzip]
  rfl

/-- C6: `urdf_to_mesh`'s sub-mesh merge offsets the j-th sub-mesh's face
indices by the cumulative vertex count of sub-meshes 0..j−1, and when every
sub-mesh's face indices are valid for its own vertex count, every merged
face index is a valid row index into the merged vertex array. -/
theorem c6_face_offsets :
    ∀ (verts_list : List (List Vec3)) (faces_list : List (List Face)),
      faces_list.length = verts_list.length →
      (∀ j, j < faces_list.length →
        (urdfFaceBlocks verts_list faces_list)[j]?
          = some ((faces_list.getD j []).map
              (fun f => offsetFace f (((verts_list.map List.length).take j).sum))))
      ∧ ((∀ j f, f ∈ faces_list.getD j [] →
            f.a < (verts_list.getD j []).length
            ∧ f.b < (verts_list.getD j []).length
            ∧ f.c < (verts_list.getD j []).length) →
          ∀ g ∈ urdfMergeFaces verts_list faces_list,
            g.a < (urdfMergeVerts verts_list).length
            ∧ g.b < (urdfMergeVerts verts_list).length
            ∧ g.c < (urdfMergeVerts verts_list).length) := by
  intro verts_list faces_list hlen
  constructor
  · intro j hj
    exact urdfFaceBlocks_getElem verts_list faces_list hlen j hj
  · intro hbounds g hg
    obtain ⟨bl, hbl, hgbl⟩ := List.mem_flatten.mp hg
    obtain ⟨n, hn⟩ := List.get_of_mem hbl
    have hblocks_len : (urdfFaceBlocks verts_list faces_list).length
        = faces_list.length := by
      unfold urdfFaceBlocks
      rw [List.length_map, List.length_zip, facesOffset_length,
        List.length_map, ← hlen, Nat.min_self]
    have hjlt : (n : Nat) < faces_list.length := by
      have := n.isLt
      omega
    have hsome : (urdfFaceBlocks verts_list faces_list)[(n : Nat)]?
        = some bl := by
      rw [List.getElem?_eq_getElem n.isLt]
      rw [List.get_eq_getElem] at hn
      rw [hn]
    have hbl2 := urdfFaceBlocks_getElem verts_list faces_list hlen (n : Nat) hjlt
    rw [hsome] at hbl2
    have hbleq : bl = (faces_list.getD (n : Nat) []).map
        (fun f => offsetFace f (((verts_list.map List.length).take (n : Nat)).sum)) :=
      Option.some.inj hbl2
    subst hbleq
    obtain ⟨f, hfmem, hfg⟩ := List.mem_map.mp hgbl
    obtain ⟨hfa, hfb, hfc⟩ := hbounds (n : Nat) f hfmem
    have hjv : (n : Nat) < verts_list.length := by omega
    have hjc : (n : Nat) < (verts_list.map List.length).length := by
      rw [List.length_map]; omega
    have hcnt : (verts_list.getD (n : Nat) []).length
        = (verts_list.map List.length).get ⟨(n : Nat), hjc⟩ := by
      rw [List.get_eq_getElem, List.getD_eq_getElem?_getD,
        List.getElem?_eq_getElem hjv, List.getElem_map]
      rfl
    have hsucc : ((verts_list.map List.length).take ((n : Nat) + 1)).sum
        = ((verts_list.map List.length).take (n : Nat)).sum
          + (verts_list.map List.length).get ⟨(n : Nat), hjc⟩ := by
      rw [List.get_eq_getElem]
      exact List.sum_take_succ (verts_list.map List.length) (n : Nat) hjc
    have hsplit : ((verts_list.map List.length).take ((n : Nat) + 1)).sum
          + ((verts_list.map List.length).drop ((n : Nat) + 1)).sum
        = (verts_list.map List.length).sum := by
      rw [← List.sum_append, List.take_append_drop]
    have htot : (urdfMergeVerts verts_list).length
        = (verts_list.map List.length).sum := by
      unfold urdfMergeVerts
      rw [List.length_flatten]
    rw [← hfg]
    unfold offsetFace
    simp only
    rw [htot]
    rw [hcnt] at hfa hfb hfc
    omega

/-- C6 witness: sub-meshes with 4 and 6 vertices, face indices 0–3 and 0–5;
the second block's indices are shifted by +4 = the first sub-mesh's vertex
count. -/
theorem c6_witness :
    (([[⟨0, 1, 2⟩, ⟨1, 2, 3⟩], [⟨0, 1, 2⟩, ⟨3, 4, 5⟩]] : List (List Face)).length
        = ([List.replicate 4 vzero, List.replicate 6 vzero] : List (List Vec3)).length)
    ∧ (urdfFaceBlocks [List.replicate 4 vzero, List.replicate 6 vzero]
          [[⟨0, 1, 2⟩, ⟨1, 2, 3⟩], [⟨0, 1, 2⟩, ⟨3, 4, 5⟩]])[1]?
        = some ((([[⟨0, 1, 2⟩, ⟨1, 2, 3⟩], [⟨0, 1, 2⟩, ⟨3, 4, 5⟩]] : List (List Face)).getD 1 []).map
            (fun f => offsetFace f
              ((([List.replicate 4 vzero, List.replicate 6 vzero].map List.length).take 1).sum))) :=
  ⟨by decide,
    (c6_face_offsets [List.replicate 4 vzero, List.replicate 6 vzero]
        [[⟨0, 1, 2⟩, ⟨1, 2, 3⟩], [⟨0, 1, 2⟩, ⟨3, 4, 5⟩]] (by decide)).1 1
      (by decide)⟩

theorem nsLookup_map_eq_none (names : List String) (f : String → PyVal)
    (a : String) (h : a ∉ names) :
    nsLookup (names.map fun n => (n, f n)) a = none := by
  induction names with
  | nil => rfl
  | cons hd tl ih =>
    simp only [List.mem_cons, not_or] at h
    have hne : ¬(hd = a) := fun he => h.1 he.symm
    simp only [List.map_cons, nsLookup]
    rw [if_neg hne]
    exact ih h.2

/-- C1 (code_bug evidence): the phase-switch check at line 151 reads
`args.args.lr`, but the argparse namespace built by the parser has no
attribute `args`, so evaluating the comparison raises AttributeError — for
the default configuration and for every possible assignment of argument
values — instead of computing `configured_lr > configured_lr *
lr_multiplier**5` and selecting a phase as the claim states. -/
theorem c1_phase_check_attribute_error :
    phaseCondition inferenceDefaultArgs = Except.error "AttributeError: args"
    ∧ ∀ argVals : String → PyVal,
        phaseCondition (inferenceArgNames.map (fun n => (n, argVals n)))
          = Except.error "AttributeError: args" := by
  constructor
  · rfl
  · intro argVals
    have h : nsLookup (inferenceArgNames.map (fun n => (n, argVals n))) "args"
        = none :=
      nsLookup_map_eq_none inferenceArgNames argVals "args"
        (by simp [inferenceArgNames])
    simp [phaseCondition, getattrNS, h]

/-- C2: after the backward pass, the masking step zeroes exactly the
latent-code gradient rows whose class index is absent from the batch, and
leaves the rows of classes present in the batch unchanged. -/
theorem c2_gradient_masking :
    ∀ (grad : Mat) (batchIdx : List Nat) (i : Nat), i < grad.length →
      ((maskAbsentGrads grad batchIdx).length = grad.length)
      ∧ (i ∉ batchIdx →
          (maskAbsentGrads grad batchIdx).getD i []
            = List.replicate ((grad.getD i []).length) 0)
      ∧ (i ∈ batchIdx →
          (maskAbsentGrads grad batchIdx).getD i [] = grad.getD i []) := by
  intro grad batchIdx i hi
  have hget : (maskAbsentGrads grad batchIdx).getD i []
      = if i ∈ batchIdx.dedup then grad.getD i []
        else List.replicate ((grad.getD i []).length) 0 := by
    rw [maskAbsentGrads, List.getD_eq_getElem?_getD, List.getElem?_map,
      List.getElem?_range hi]
    rfl
  refine ⟨by simp [maskAbsentGrads], ?_, ?_⟩
  · intro habs
    rw [hget, if_neg (fun hmem => habs (List.mem_dedup.mp hmem))]
  · intro hpres
    rw [hget, if_pos (List.mem_dedup.mpr hpres)]

/-- C2 witness: three classes, batch containing classes 0 and 2; the gradient
row of the absent class 1 is zeroed. -/
theorem c2_witness :
    (1 < ([[1, 2], [3, 4], [5, 6]] : Mat).length)
    ∧ (maskAbsentGrads [[1, 2], [3, 4], [5, 6]] [0, 2]).getD 1 []
        = List.replicate ((([[1, 2], [3, 4], [5, 6]] : Mat).getD 1 []).length) 0 :=
  ⟨by decide,
    (c2_gradient_masking [[1, 2], [3, 4], [5, 6]] [0, 2] 1 (by decide)).2.1
      (by decide)⟩

/-- C3 counterexample: for the out-of-range configured index −2 on the
three-object list, `get_data` does not fall back to random selection (which,
for the uniform draw 0, would yield the first object): Python negative
indexing deterministically selects the second-to-last object instead. -/
theorem c3_counterexample :
    selectTargetObj (-2) ["a", "b", "c"] 0 = some "b"
    ∧ selectTargetObj (-2) ["a", "b", "c"] 0 ≠ (["a", "b", "c"] : List String).get? 0 := by
  constructor
  · rfl
  · intro h
    simp only [selectTargetObj, pyIndex] at h
    revert h
    decide

/-- C3 (amended): random fallback happens exactly for index −1 or an index ≥
the number of objects; an index in [0, n) selects that object; a negative
index other than −1 that is ≥ −n deterministically selects the object at
position n + idx via Python negative indexing (not random); an index below −n
raises IndexError. -/
theorem c3_object_selection_amended :
    ∀ (objs : List String) (idx : ℤ) (r : Nat), r < objs.length →
      ((idx = -1 ∨ (objs.length : ℤ) ≤ idx) →
          selectTargetObj idx objs r = objs.get? r)
      ∧ ((0 ≤ idx ∧ idx < (objs.length : ℤ)) →
          selectTargetObj idx objs r = objs.get? idx.toNat
          ∧ (objs.get? idx.toNat).isSome = true)
      ∧ ((idx < -1 ∧ 0 ≤ idx + (objs.length : ℤ)) →
          selectTargetObj idx objs r
            = objs.get? (idx + (objs.length : ℤ)).toNat
          ∧ (objs.get? (idx + (objs.length : ℤ)).toNat).isSome = true)
      ∧ ((idx ≠ -1 ∧ idx + (objs.length : ℤ) < 0) →
          selectTargetObj idx objs r = none) := by
  intro objs idx r hr
  refine ⟨?_, ?_, ?_, ?_⟩
  · rintro (h | h)
    · rw [selectTargetObj, if_neg (fun hc => hc.1 h)]
    · rw [selectTargetObj, if_neg (fun hc => absurd hc.2 (not_lt.2 h))]
  · rintro ⟨h0, hlt⟩
    have hguard : idx ≠ -1 ∧ idx < (objs.length : ℤ) := ⟨by omega, hlt⟩
    have htn : idx.toNat < objs.length := by omega
    rw [selectTargetObj, if_pos hguard, pyIndex, if_pos h0]
    exact ⟨rfl, by rw [List.get?_eq_get htn]; rfl⟩
  · rintro ⟨hneg, hge⟩
    have hguard : idx ≠ -1 ∧ idx < (objs.length : ℤ) := ⟨by omega, by omega⟩
    have htn : (idx + (objs.length : ℤ)).toNat < objs.length := by omega
    rw [selectTargetObj, if_pos hguard, pyIndex, if_neg (by omega),
      if_pos hge]
    exact ⟨rfl, by rw [List.get?_eq_get htn]; rfl⟩
  · rintro ⟨hne, hlow⟩
    have hguard : idx ≠ -1 ∧ idx < (objs.length : ℤ) := ⟨hne, by omega⟩
    rw [selectTargetObj, if_pos hguard, pyIndex, if_neg (by omega),
      if_neg (by omega)]

/-- C3 witness: index −2 on a three-object list deterministically selects the
object at position 1. -/
theorem c3_witness :
    (0 < (["a", "b", "c"] : List String).length)
    ∧ (selectTargetObj (-2) ["a", "b", "c"] 0
        = (["a", "b", "c"] : List String).get?
            ((-2 : ℤ) + (((["a", "b", "c"] : List String).length : ℤ))).toNat
      ∧ ((["a", "b", "c"] : List String).get?
            ((-2 : ℤ) + (((["a", "b", "c"] : List String).length : ℤ))).toNat).isSome
          = true) :=
  ⟨by decide,
    (c3_object_selection_amended ["a", "b", "c"] (-2) 0 (by decide)).2.2.1
      (by decide)⟩

/-- C4: a sampled point is retained by `get_data` iff its signed distance is
strictly inside (−0.001, 0.001); on the sdf values
[−0.01, −0.0005, 0, 0.0005, 0.01] exactly the middle three are retained. -/
theorem c4_near_surface_filter :
    (∀ (samples : List Sample) (s : Sample),
        s ∈ retainNearSurface samples
          ↔ s ∈ samples ∧ (-(1/1000) < s.sdf ∧ s.sdf < 1/1000))
    ∧ retainNearSurface
        [⟨vzero, -(1/100)⟩, ⟨vzero, -(1/2000)⟩, ⟨vzero, 0⟩,
         ⟨vzero, 1/2000⟩, ⟨vzero, 1/100⟩]
      = [⟨vzero, -(1/2000)⟩, ⟨vzero, 0⟩, ⟨vzero, 1/2000⟩] := by
  constructor
  · intro samples s
    simp only [retainNearSurface, List.mem_filter, decide_eq_true_eq]
    constructor
    · rintro ⟨hmem, hlt, hgt⟩
      exact ⟨hmem, hgt, hlt⟩
    · rintro ⟨hmem, hgt, hlt⟩
      exact ⟨hmem, hlt, hgt⟩
  · simp only [retainNearSurface, List.filter_cons, List.filter_nil,
      decide_eq_true_eq]
    norm_num

/-- C5: with touches > 0, the accumulated touch sample set is the
concatenation over the touches, in order, of exactly the retained points
inside the inclusive cube [c − 0.06, c + 0.06] around that touch's randomly
chosen retained centre c, and duplicates across overlapping touches are
preserved: a point occurs as many times as the total of its occurrences in
the individual touch cubes. -/
theorem c5_touch_accumulation :
    ∀ (samples : List Sample) (idxs : List Nat),
      (∀ i ∈ idxs, i < samples.length) →
      (simulateTouches samples idxs []
        = (idxs.map
            (fun i => touchSamples samples (samples.getD i defaultSample).coords)).flatten)
      ∧ (∀ (c : Vec3) (s : Sample), s ∈ touchSamples samples c →
          (c.x - 6/100 ≤ s.coords.x ∧ s.coords.x ≤ c.x + 6/100)
          ∧ (c.y - 6/100 ≤ s.coords.y ∧ s.coords.y ≤ c.y + 6/100)
          ∧ (c.z - 6/100 ≤ s.coords.z ∧ s.coords.z ≤ c.z + 6/100))
      ∧ (∀ s : Sample,
          (simulateTouches samples idxs []).count s
            = (idxs.map
                (fun i => (touchSamples samples
                    (samples.getD i defaultSample).coords).count s)).sum) := by
  intro samples idxs hidx
  have hflat := simulateTouches_eq_flatten samples idxs []
  refine ⟨by simpa using hflat, ?_, ?_⟩
  · intro c s hs
    have hmem := List.mem_filter.mp hs
    have hcond := of_decide_eq_true hmem.2
    obtain ⟨h1, h2, h3, h4, h5, h6⟩ := hcond
    exact ⟨⟨h2, h1⟩, ⟨h4, h3⟩, ⟨h6, h5⟩⟩
  · intro s
    rw [hflat, List.nil_append, List.count_flatten, List.map_map]
    rfl

/-- C5 witness: two retained samples 0.05 apart, two touches centred at each
of them in turn; the accumulated set is the concatenation of the two
(overlapping) cube contents. -/
theorem c5_witness :
    (0 < exSamples.length ∧ 1 < exSamples.length)
    ∧ simulateTouches exSamples [0, 1] []
        = (([0, 1] : List Nat).map
            (fun i => touchSamples exSamples (exSamples.getD i defaultSample).coords)).flatten :=
  ⟨⟨by decide, by decide⟩,
    (c5_touch_accumulation exSamples [0, 1] (by decide)).1⟩

/-- C8: `translate_rotate_mesh` maps every work-frame point q of touch batch
i to rot_M_wrld[i]·q + pos_wrld[i] − obj_initial_pos, and identity rotation,
zero sensor position and zero initial object position leave every point
cloud unchanged. -/
theorem c8_translate_rotate :
    (∀ (ps : List Vec3) (Rs : List Mat3) (pcs : List (List Vec3))
        (init : Vec3) (i : Nat),
        i < ps.length → i < Rs.length → i < pcs.length →
        (translate_rotate_mesh ps Rs pcs init).get? i
          = some ((pcs.getD i []).map
              (fun q => vsub (vadd (matVec (Rs.getD i identMat) q)
                  (ps.getD i vzero)) init)))
    ∧ (∀ pcs : List (List Vec3),
        translate_rotate_mesh (List.replicate pcs.length vzero)
          (List.replicate pcs.length identMat) pcs vzero = pcs) := by
  constructor
  · intro ps
    induction ps with
    | nil =>
      intro Rs pcs init i h1
      exact absurd h1 (by simp)
    | cons p ps ih =>
      intro Rs pcs init i h1 h2 h3
      cases Rs with
      | nil => simp at h2
      | cons R Rs =>
        cases pcs with
        | nil => simp at h3
        | cons pc pcs =>
          cases i with
          | zero => rfl
          | succ j =>
            simp only [List.length_cons] at h1 h2 h3
            simp only [translate_rotate_mesh, List.get?_cons_succ,
              List.getD_cons_succ]
            exact ih Rs pcs init j (by omega) (by omega) (by omega)
  · intro pcs
    induction pcs with
    | nil => rfl
    | cons pc pcs ih =>
      simp only [List.length_cons, List.replicate_succ, translate_rotate_mesh,
        ih, ident_point, List.map_id, List.map_id']

/-- C8 witness: a single batch with one point, identity rotation, concrete
translation. -/
theorem c8_witness :
    (0 < ([⟨1, 2, 3⟩] : List Vec3).length)
    ∧ (translate_rotate_mesh [⟨1, 2, 3⟩] [identMat] [[⟨4, 5, 6⟩]] vzero).get? 0
        = some ((([[⟨4, 5, 6⟩]] : List (List Vec3)).getD 0 []).map
            (fun q => vsub (vadd (matVec (([identMat] : List Mat3).getD 0 identMat) q)
                (([⟨1, 2, 3⟩] : List Vec3).getD 0 vzero)) vzero)) :=
  ⟨by decide,
    c8_translate_rotate.1 [⟨1, 2, 3⟩] [identMat] [[⟨4, 5, 6⟩]] vzero 0
      (by decide) (by decide) (by decide)⟩

/-- C9: the latent code initialised by the inference script depends only on
the configured latent size and the fresh Gaussian draw, never on the loaded
training results record: any two results records give identical codes under
the same randomness. -/
theorem c9_latent_init_independent :
    ∀ (latent_size : Nat) (r1 r2 : ResultsRecord) (gaussianDraw : Nat → ℚ),
      initialise_latent_code latent_size r1 gaussianDraw
        = initialise_latent_code latent_size r2 gaussianDraw :=
  fun _ _ _ _ => rfl

/-- C10: the inference script's best latent code is persisted iff at least one
epoch's loss is strictly below the sentinel 1,000,000; in particular with zero
epochs (empty loss sequence) the persistence step fails (NameError on the
never-assigned `best_latent_code`). -/
theorem c10_best_latent_persistence :
    persistLatentCode [] = none
    ∧ ∀ epochResults : List (ℚ × Mat),
        (persistLatentCode epochResults).isSome
          = epochResults.any (fun e => decide (e.1 < 1000000)) := by
  refine ⟨rfl, fun epochResults => ?_⟩
  simpa [persistLatentCode, trackBestLatent]
    using bestStep_fold_isSome epochResults 1000000 none

theorem runEpochs_trace (M : Type) (tp : M → Mat → M × Mat × ℚ)
    (vp : M → Mat → ℚ) (st0 : RunState M) :
    ∀ n, (runEpochs M tp vp st0 n).trace
      = st0.trace ++ ((List.range n).map epochEvents).flatten := by
  intro n
  induction n with
  | zero => simp [runEpochs]
  | succ n ih =>
    simp only [runEpochs, epochBody, ih, List.range_succ, List.map_append,
      List.flatten_append, List.map_cons, List.map_nil, List.flatten_cons,
      List.flatten_nil, List.append_nil, List.append_assoc]

theorem runEpochs_len (M : Type) (tp : M → Mat → M × Mat × ℚ)
    (vp : M → Mat → ℚ) (st0 : RunState M) :
    ∀ n,
      ((runEpochs M tp vp st0 n).results.train_loss.length
        = st0.results.train_loss.length + n)
      ∧ ((runEpochs M tp vp st0 n).results.train_latent_codes.length
        = st0.results.train_latent_codes.length + n)
      ∧ ((runEpochs M tp vp st0 n).results.val_loss.length
        = st0.results.val_loss.length + n) := by
  intro n
  induction n with
  | zero => simp [runEpochs]
  | succ n ih =>
    obtain ⟨h1, h2, h3⟩ := ih
    refine ⟨?_, ?_, ?_⟩ <;>
      · simp only [runEpochs, epochBody, List.length_append, List.length_cons,
          List.length_nil, h1, h2, h3]
        omega

theorem runEpochs_shape (M : Type) (tp : M → Mat → M × Mat × ℚ)
    (vp : M → Mat → ℚ) (R C : Nat)
    (hpres : ∀ mp lc, matShape lc R C → matShape (tp mp lc).2.1 R C)
    (st0 : RunState M) :
    ∀ n, matShape st0.latent_codes R C →
      (∀ mat ∈ st0.results.train_latent_codes, matShape mat R C) →
      matShape (runEpochs M tp vp st0 n).latent_codes R C
      ∧ ∀ mat ∈ (runEpochs M tp vp st0 n).results.train_latent_codes,
          matShape mat R C := by
  intro n
  induction n with
  | zero =>
    intro h1 h2
    exact ⟨h1, h2⟩
  | succ n ih =>
    intro h1 h2
    obtain ⟨hl, hs⟩ := ih h1 h2
    refine ⟨?_, ?_⟩
    · simp only [runEpochs, epochBody]
      exact hpres _ _ hl
    · simp only [runEpochs, epochBody]
      intro mat hmat
      rcases List.mem_append.mp hmat with hmem | hmem
      · exact hs mat hmem
      · rw [List.mem_singleton] at hmem
        subst hmem
        exact hpres _ _ hl

theorem generate_latent_codes_shape (latent_size : Nat)
    (sample_keys : List String) (draw : Nat → Nat → ℚ) :
    matShape (generate_latent_codes latent_size sample_keys draw).1
      sample_keys.dedup.length latent_size := by
  constructor
  · simp [generate_latent_codes]
  · intro row hrow
    simp only [generate_latent_codes, List.mem_map] at hrow
    obtain ⟨i, hi, hrow⟩ := hrow
    subst hrow
    simp

theorem epochTraces_length (n : Nat) :
    (((List.range n).map epochEvents).flatten).length = 4 * n := by
  rw [List.length_flatten, List.map_map]
  have hc : (List.length ∘ epochEvents) = fun _ : Nat => 4 := funext (fun _ => rfl)
  rw [hc, List.map_const', List.sum_replicate, smul_eq_mul, List.length_range]
  omega

theorem epochTraces_getElem (n i : Nat) (h : i < 4 * n) :
    (((List.range n).map epochEvents).flatten)[i]? = some (evAt i) := by
  induction n with
  | zero => omega
  | succ n ih =>
    rw [List.range_succ, List.map_append, List.flatten_append]
    have hlen := epochTraces_length n
    by_cases hi : i < 4 * n
    · rw [List.getElem?_append]
      rw [if_pos (by omega)]
      exact ih hi
    · rw [List.getElem?_append_right (by omega), hlen]
      simp only [List.map_cons, List.map_nil, List.flatten_cons,
        List.flatten_nil, List.append_nil]
      have h0 : i / 4 = n := by omega
      have hcase : i - 4 * n = 0 ∨ i - 4 * n = 1 ∨ i - 4 * n = 2
          ∨ i - 4 * n = 3 := by omega
      rcases hcase with hcs | hcs | hcs | hcs
      · have h4 : i % 4 = 0 := by omega
        rw [hcs]
        simp [epochEvents, evAt, h4, h0]
      · have h4 : i % 4 = 1 := by omega
        rw [hcs]
        simp [epochEvents, evAt, h4, h0]
      · have h4 : i % 4 = 2 := by omega
        rw [hcs]
        simp [epochEvents, evAt, h4, h0]
      · have h4 : i % 4 = 3 := by omega
        rw [hcs]
        simp [epochEvents, evAt, h4, h0]

theorem evAt_trainPass (i e : Nat) (h : evAt i = TrainEvent.trainPass e) :
    i = 4 * e := by
  have h4 : i % 4 = 0 ∨ i % 4 = 1 ∨ i % 4 = 2 ∨ i % 4 = 3 := by omega
  rcases h4 with h4 | h4 | h4 | h4
  · unfold evAt at h
    rw [h4] at h
    simp only [TrainEvent.trainPass.injEq] at h
    omega
  · unfold evAt at h
    rw [h4] at h
    simp at h
  · unfold evAt at h
    rw [h4] at h
    simp at h
  · unfold evAt at h
    rw [h4] at h
    simp at h

theorem evAt_saveResults (i e : Nat) (h : evAt i = TrainEvent.saveResults e) :
    i = 4 * e + 2 := by
  have h4 : i % 4 = 0 ∨ i % 4 = 1 ∨ i % 4 = 2 ∨ i % 4 = 3 := by omega
  rcases h4 with h4 | h4 | h4 | h4
  · unfold evAt at h
    rw [h4] at h
    simp at h
  · unfold evAt at h
    rw [h4] at h
    simp at h
  · unfold evAt at h
    rw [h4] at h
    simp only [TrainEvent.saveResults.injEq] at h
    omega
  · unfold evAt at h
    rw [h4] at h
    simp at h

theorem evAt_saveWeights (i e : Nat) (h : evAt i = TrainEvent.saveWeights e) :
    i = 4 * e + 3 := by
  have h4 : i % 4 = 0 ∨ i % 4 = 1 ∨ i % 4 = 2 ∨ i % 4 = 3 := by omega
  rcases h4 with h4 | h4 | h4 | h4
  · unfold evAt at h
    rw [h4] at h
    simp at h
  · unfold evAt at h
    rw [h4] at h
    simp at h
  · unfold evAt at h
    rw [h4] at h
    simp at h
  · unfold evAt at h
    rw [h4] at h
    simp only [TrainEvent.saveWeights.injEq] at h
    omega

theorem getElem?_some_lt {α : Type} (l : List α) (i : Nat) (a : α)
    (h : l[i]? = some a) : i < l.length := by
  by_contra hc
  rw [List.getElem?_eq_none (by omega)] at h
  cases h

/-- C7: after epoch k+1 of the training driver completes, the results record
holds exactly k+1 training losses, k+1 validation losses and k+1 latent-code
snapshots, each snapshot of shape (number of classes, latent size); the
results and checkpoint files on disk hold the current record and model
parameters; and in the full run's event trace, epoch k's results and
checkpoint overwrites always precede epoch k+1's training pass. -/
theorem c7_epoch_results :
    ∀ (M : Type) (tp : M → Mat → M × Mat × ℚ) (vp : M → Mat → ℚ)
      (m0 : M) (sample_keys : List String) (latent_size : Nat)
      (draw : Nat → Nat → ℚ) (epochs k : Nat),
      k < epochs →
      (∀ mp lc, matShape lc sample_keys.dedup.length latent_size →
          matShape (tp mp lc).2.1 sample_keys.dedup.length latent_size) →
      ((trainerRun M tp vp m0 sample_keys latent_size draw (k + 1)).results.train_loss.length
          = k + 1
        ∧ (trainerRun M tp vp m0 sample_keys latent_size draw (k + 1)).results.val_loss.length
          = k + 1
        ∧ (trainerRun M tp vp m0 sample_keys latent_size draw (k + 1)).results.train_latent_codes.length
          = k + 1)
      ∧ (∀ mat ∈ (trainerRun M tp vp m0 sample_keys latent_size draw
            (k + 1)).results.train_latent_codes,
          matShape mat sample_keys.dedup.length latent_size)
      ∧ (trainerRun M tp vp m0 sample_keys latent_size draw (k + 1)).disk_results
          = some (trainerRun M tp vp m0 sample_keys latent_size draw (k + 1)).results
      ∧ (trainerRun M tp vp m0 sample_keys latent_size draw (k + 1)).disk_weights
          = some (trainerRun M tp vp m0 sample_keys latent_size draw (k + 1)).model_params
      ∧ (∀ i j : Nat,
          ((trainerRun M tp vp m0 sample_keys latent_size draw epochs).trace[j]?
              = some (TrainEvent.saveResults k)
            ∨ (trainerRun M tp vp m0 sample_keys latent_size draw epochs).trace[j]?
              = some (TrainEvent.saveWeights k)) →
          (trainerRun M tp vp m0 sample_keys latent_size draw epochs).trace[i]?
              = some (TrainEvent.trainPass (k + 1)) →
          j < i) := by
  intro M tp vp m0 sample_keys latent_size draw epochs k hk hpres
  have hlen := runEpochs_len M tp vp
    (initRunState M m0 (generate_latent_codes latent_size sample_keys draw).1)
    (k + 1)
  have hshape := runEpochs_shape M tp vp sample_keys.dedup.length latent_size
    hpres (initRunState M m0 (generate_latent_codes latent_size sample_keys draw).1)
    (k + 1)
    (generate_latent_codes_shape latent_size sample_keys draw)
    (by intro mat hmat; simp [initRunState] at hmat)
  have htr : (trainerRun M tp vp m0 sample_keys latent_size draw epochs).trace
      = ((List.range epochs).map epochEvents).flatten := by
    rw [trainerRun, runEpochs_trace]
    simp [initRunState]
  refine ⟨⟨?_, ?_, ?_⟩, ?_, ?_, ?_, ?_⟩
  · rw [trainerRun, hlen.1]
    simp [initRunState]
  · rw [trainerRun, hlen.2.2]
    simp [initRunState]
  · rw [trainerRun, hlen.2.1]
    simp [initRunState]
  · rw [trainerRun]
    exact hshape.2
  · rfl
  · rfl
  · intro i j hj hi
    rw [htr] at hj hi
    have hilt : i < 4 * epochs := by
      have := getElem?_some_lt _ _ _ hi
      rw [epochTraces_length] at this
      exact this
    have hieq : evAt i = TrainEvent.trainPass (k + 1) := by
      have h2 := epochTraces_getElem epochs i hilt
      rw [hi] at h2
      exact (Option.some.inj h2).symm
    have hi4 := evAt_trainPass i (k + 1) hieq
    rcases hj with hj | hj
    · have hjlt : j < 4 * epochs := by
        have := getElem?_some_lt _ _ _ hj
        rw [epochTraces_length] at this
        exact this
      have hjeq : evAt j = TrainEvent.saveResults k := by
        have h2 := epochTraces_getElem epochs j hjlt
        rw [hj] at h2
        exact (Option.some.inj h2).symm
      have hj4 := evAt_saveResults j k hjeq
      omega
    · have hjlt : j < 4 * epochs := by
        have := getElem?_some_lt _ _ _ hj
        rw [epochTraces_length] at this
        exact this
      have hjeq : evAt j = TrainEvent.saveWeights k := by
        have h2 := epochTraces_getElem epochs j hjlt
        rw [hj] at h2
        exact (Option.some.inj h2).symm
      have hj4 := evAt_saveWeights j k hjeq
      omega

/-- C7 witness: the spec's end-to-end scenario — two classes, latent size 4,
two epochs — yields exactly two training losses, two validation losses and
two latent-code snapshots. -/
theorem c7_witness :
    (1 < 2)
    ∧ ((trainerRun Unit (fun _ lc => ((), lc, (0 : ℚ))) (fun _ _ => (0 : ℚ)) ()
          ["0", "1"] 4 (fun _ _ => (0 : ℚ)) (1 + 1)).results.train_loss.length
        = 1 + 1
      ∧ (trainerRun Unit (fun _ lc => ((), lc, (0 : ℚ))) (fun _ _ => (0 : ℚ)) ()
          ["0", "1"] 4 (fun _ _ => (0 : ℚ)) (1 + 1)).results.val_loss.length
        = 1 + 1
      ∧ (trainerRun Unit (fun _ lc => ((), lc, (0 : ℚ))) (fun _ _ => (0 : ℚ)) ()
          ["0", "1"] 4 (fun _ _ => (0 : ℚ)) (1 + 1)).results.train_latent_codes.length
        = 1 + 1) :=
  ⟨by decide,
    (c7_epoch_results Unit (fun _ lc => ((), lc, (0 : ℚ))) (fun _ _ => (0 : ℚ)) ()
      ["0", "1"] 4 (fun _ _ => (0 : ℚ)) 2 1 (by decide)
      (fun _ _ h => h)).1⟩

end TouchSDF
